import Mathlib

/-!
Verification of the marathon-weather fetcher (`src/data/get_weather_data.py`).

The Python module is embedded shallowly:

* JSON values are given by typed structures matching the schemas in the
  spec (§6): `Marathon`/`Event` for the catalog file, `WeatherRecord` and
  `HourlyReading` for the cache file, and `WeatherData`/`Day`/`Hour` for the
  parsed API response.  A field that may be absent or null in the JSON is an
  `Option`.  JSON numbers are modelled as `ℚ` (they are only copied, never
  computed with).
* The network is an oracle `Client : String → String → Except String WeatherData`
  standing for `get_weather_data`'s I/O part (`urllib.request.urlopen` +
  `json.loads`); an `Except.error` models a network/parse failure.  The pure
  URL-construction part of `get_weather_data` (lines 29–41) is embedded
  separately as `get_weather_request_url`, together with models of
  `urllib.parse.quote` / `urlencode`.
* The Python dict built by `load_existing_weather` is a function
  `(String × String) → Option WeatherRecord`, built by left-to-right insertion
  exactly as the dict comprehension does (later entries overwrite earlier ones).
* `fetch_all_marathon_weather` is embedded as a recursion over the marathon
  list and each marathon's history; it additionally returns the list of
  `(location, date)` arguments passed to the client, in call order, so that
  claims about which network calls happen are statable.  A failing call or a
  failing extraction aborts the whole run (`Except.error`), as the uncaught
  Python exception does.
* `main` is embedded as `main_run`, a function from the old cache-file
  contents (`none` = file absent) to the new contents: the file is rewritten
  only when `fetch_all_marathon_weather` succeeds.
-/

/-- One hourly entry of the parsed API response: a JSON object whose fields
may each be absent (or null, for the numeric ones). -/
structure Hour where
  datetime : Option String
  temp : Option ℚ
  dew : Option ℚ
  windspeed : Option ℚ
  conditions : Option String
deriving DecidableEq, Repr

/-- One element of the response's `days` array. -/
structure Day where
  hours : List Hour
deriving DecidableEq, Repr

/-- A parsed API response (`weather_data` in the source). -/
structure WeatherData where
  days : List Day
deriving DecidableEq, Repr

/-- An extracted hourly reading, as appended to `extracted_data`
(source lines 59–65). -/
structure HourlyReading where
  datetime : String
  temp : Option ℚ
  dew : Option ℚ
  windspeed : Option ℚ
  conditions : String
deriving DecidableEq, Repr

/-- An event of a marathon's history: `{"date": ..., "year": ...}`. -/
structure Event where
  date : String
  year : Int
deriving DecidableEq, Repr

/-- A catalog entry: `{"name": ..., "location": ..., "history": [...]}`. -/
structure Marathon where
  name : String
  location : String
  history : List Event
deriving DecidableEq, Repr

/-- A cache-file record, as built at source lines 140–146. -/
structure WeatherRecord where
  marathon : String
  location : String
  date : String
  year : Int
  weather : List HourlyReading
deriving DecidableEq, Repr, Inhabited

/-- The dict built by `hour.get(...)` calls: copy the five fields,
defaulting a missing `datetime`/`conditions` to `""` and keeping
`temp`/`dew`/`windspeed` as they are (missing stays `None`).
Source lines 59–65. -/
def extract_hour (hour : Hour) : HourlyReading :=
  { datetime := hour.datetime.getD ""
    temp := hour.temp
    dew := hour.dew
    windspeed := hour.windspeed
    conditions := hour.conditions.getD "" }

/-- `extract_weather_fields` (source lines 48–66): assert that `days` has
exactly one element (`AssertionError` otherwise, modelled as `Except.error`),
then map the field copy over that day's `hours`. -/
def extract_weather_fields (weather_data : WeatherData) :
    Except String (List HourlyReading) :=
  match weather_data.days with
  | [day_data] => Except.ok (day_data.hours.map extract_hour)
  | _ => Except.error "Expected 1 day of data"

/-- The loaded cache: the Python dict mapping `(marathon, date)` to a cached
record, modelled as a lookup function. -/
abbrev Cache := String × String → Option WeatherRecord

/-- One dict binding step: later insertions overwrite earlier ones, as in a
Python dict. -/
def dict_insert (d : Cache) (key : String × String) (entry : WeatherRecord) :
    Cache :=
  fun k => if k = key then some entry else d k

/-- The dict comprehension of source line 103:
`{(entry["marathon"], entry["date"]): entry for entry in existing_data}`,
evaluated left to right, so a later duplicate key overwrites an earlier one. -/
def index_by_key (existing_data : List WeatherRecord) : Cache :=
  existing_data.foldl
    (fun d entry => dict_insert d (entry.marathon, entry.date) entry)
    (fun _ => none)

/-- `load_existing_weather` (source lines 86–103), as a function of the cache
file's contents; `none` models the file being absent (the `os.path.exists`
check at lines 96–97 returns an empty dict in that case). -/
def load_existing_weather (file : Option (List WeatherRecord)) : Cache :=
  match file with
  | none => fun _ => none
  | some existing_data => index_by_key existing_data

/-- The Weather Source Client as an oracle: `get_weather_data`'s I/O part.
Given `(location, date)` it either yields a parsed response or fails
(network error, non-2xx status, malformed JSON). -/
abbrev Client := String → String → Except String WeatherData

/-- One required `(marathon name, location, event)` triple of the catalog. -/
structure CatEntry where
  name : String
  location : String
  event : Event
deriving DecidableEq, Repr

/-- The catalog flattened in marathon-then-history order: the sequence of
events the nested loops of `fetch_all_marathon_weather` (source lines
119–125) iterate over. -/
def catalog_events (marathons : List Marathon) : List CatEntry :=
  marathons.flatMap fun m => m.history.map fun e => ⟨m.name, m.location, e⟩

/-- The `(location, date)` arguments of the client calls a full pass over
`entries` makes: one call per cache miss, none per cache hit, in catalog
order. -/
def miss_calls (existing_weather : Cache) (entries : List CatEntry) :
    List (String × String) :=
  entries.filterMap fun x =>
    match existing_weather (x.name, x.event.date) with
    | some _ => none
    | none => some (x.location, x.event.date)

/-- The inner loop of `fetch_all_marathon_weather` (source lines 125–147) for
one marathon: walk the history; on a cache hit append the cached record
unchanged, on a miss call the client, extract the fields and append the newly
built record.  Besides the appended records it returns the `(location, date)`
arguments of the client calls made, in order; an error of the client or of
the extraction aborts the run, as the uncaught Python exception does. -/
def fetch_marathon_history (client : Client) (existing_weather : Cache)
    (marathon_name location : String) :
    List Event → Except String (List WeatherRecord × List (String × String))
  | [] => Except.ok ([], [])
  | event :: rest =>
    match existing_weather (marathon_name, event.date) with
    | some cached =>
      match fetch_marathon_history client existing_weather marathon_name location rest with
      | Except.ok (records, calls) => Except.ok (cached :: records, calls)
      | Except.error e => Except.error e
    | none =>
      match client location event.date with
      | Except.error e => Except.error e
      | Except.ok weather_data =>
        match extract_weather_fields weather_data with
        | Except.error e => Except.error e
        | Except.ok extracted_weather =>
          match fetch_marathon_history client existing_weather marathon_name location rest with
          | Except.ok (records, calls) =>
            Except.ok
              ({ marathon := marathon_name
                 location := location
                 date := event.date
                 year := event.year
                 weather := extracted_weather } :: records,
               (location, event.date) :: calls)
          | Except.error e => Except.error e

/-- `fetch_all_marathon_weather` (source lines 106–149): the outer loop over
the catalog, concatenating each marathon's appended records (and client
calls) in catalog order. -/
def fetch_all_marathon_weather (client : Client) (marathons : List Marathon)
    (existing_weather : Cache) :
    Except String (List WeatherRecord × List (String × String)) :=
  match marathons with
  | [] => Except.ok ([], [])
  | marathon :: rest =>
    match fetch_marathon_history client existing_weather marathon.name
        marathon.location marathon.history with
    | Except.error e => Except.error e
    | Except.ok (records, calls) =>
      match fetch_all_marathon_weather client rest existing_weather with
      | Except.ok (records2, calls2) =>
        Except.ok (records ++ records2, calls ++ calls2)
      | Except.error e => Except.error e

/-- `main` (source lines 152–169), as a function from the cache file's old
contents to its new contents: the results are written (the file is
overwritten) only when the whole fetch succeeded; an error leaves the file
untouched. -/
def main_run (client : Client) (marathons : List Marathon)
    (file : Option (List WeatherRecord)) : Option (List WeatherRecord) :=
  match fetch_all_marathon_weather client marathons (load_existing_weather file) with
  | Except.ok (results, _) => some results
  | Except.error _ => file

/-- What one catalog entry contributes to the output: the cached record on a
hit, or on a miss the record built from the client's response for
`(location, date)` with the extracted weather and the event's year. -/
def expected_record (client : Client) (existing_weather : Cache)
    (x : CatEntry) : Except String WeatherRecord :=
  match existing_weather (x.name, x.event.date) with
  | some cached => Except.ok cached
  | none =>
    match client x.location x.event.date with
    | Except.error e => Except.error e
    | Except.ok weather_data =>
      match extract_weather_fields weather_data with
      | Except.error e => Except.error e
      | Except.ok extracted_weather =>
        Except.ok
          { marathon := x.name
            location := x.location
            date := x.event.date
            year := x.event.year
            weather := extracted_weather }

/-- Equality of run results is decidable, so that concrete runs can be
checked by evaluation. -/
instance {ε α : Type} [DecidableEq ε] [DecidableEq α] : DecidableEq (Except ε α) :=
  fun x y =>
    match x, y with
    | Except.ok a, Except.ok b =>
      if h : a = b then isTrue (by rw [h]) else isFalse (fun hc => h (Except.ok.inj hc))
    | Except.error a, Except.error b =>
      if h : a = b then isTrue (by rw [h]) else isFalse (fun hc => h (Except.error.inj hc))
    | Except.ok _, Except.error _ => isFalse (fun hc => Except.noConfusion hc)
    | Except.error _, Except.ok _ => isFalse (fun hc => Except.noConfusion hc)

/-- Sample client that always fails: no network available. -/
def no_network : Client := fun _ _ => Except.error "no network"

/-- Sample single-day response with one hourly entry. -/
def one_day_response : WeatherData :=
  ⟨[⟨[⟨some "00:00:00", some 50, some 40, some 5, some "Clear"⟩]⟩]⟩

/-- Sample client that always answers with `one_day_response`. -/
def stub_client : Client := fun _ _ => Except.ok one_day_response

/-- Sample cached record for Boston 2020. -/
def boston_record : WeatherRecord :=
  ⟨"Boston", "Boston, MA", "2020-04-20", 2020, []⟩

/-- Sample one-event catalog entry for Boston 2020. -/
def boston_marathon : Marathon :=
  ⟨"Boston", "Boston, MA", [⟨"2020-04-20", 2020⟩]⟩

/-- The record `stub_client`'s response yields for Boston 2020. -/
def fetched_boston_record : WeatherRecord :=
  ⟨"Boston", "Boston, MA", "2020-04-20", 2020,
   [⟨"00:00:00", some 50, some 40, some 5, "Clear"⟩]⟩

/-- Sample catalog entry listing the same Boston date twice. -/
def dup_marathon : Marathon :=
  ⟨"Boston", "Boston, MA", [⟨"2020-04-20", 2020⟩, ⟨"2020-04-20", 2020⟩]⟩

/-- `BASE_URL` (source line 8). -/
def BASE_URL : String :=
  "https://weather.visualcrossing.com/VisualCrossingWebServices/rest/services/timeline/"

/-- Upper-case hexadecimal digit, as `urllib`'s percent-escapes use. -/
def hex_digit (n : Nat) : Char :=
  Char.ofNat (if n < 10 then 48 + n else 55 + n)

/-- The `%XX` escape of one byte value. -/
def percent_encode_byte (b : Nat) : String :=
  String.mk ['%', hex_digit (b / 16), hex_digit (b % 16)]

/-- The UTF-8 encoding of one character, as its list of byte values. -/
def utf8_bytes (c : Char) : List Nat :=
  if c.toNat < 128 then [c.toNat]
  else if c.toNat < 2048 then
    [192 + c.toNat / 64, 128 + c.toNat % 64]
  else if c.toNat < 65536 then
    [224 + c.toNat / 4096, 128 + c.toNat / 64 % 64, 128 + c.toNat % 64]
  else
    [240 + c.toNat / 262144, 128 + c.toNat / 4096 % 64, 128 + c.toNat / 64 % 64,
     128 + c.toNat % 64]

/-- `urllib.parse`'s always-safe byte values: ASCII letters, digits and
`-`, `.`, `_`, `~`. -/
def is_always_safe (b : Nat) : Bool :=
  (65 ≤ b && b ≤ 90) || (97 ≤ b && b ≤ 122) || (48 ≤ b && b ≤ 57) ||
    b == 45 || b == 46 || b == 95 || b == 126

/-- `urllib.parse.quote` on one character, given the extra safe byte values:
a safe ASCII character stands for itself, anything else becomes the `%XX`
escapes of its UTF-8 bytes.  (A multi-byte character's bytes are all ≥ 128
and never safe, so this character-wise model agrees with Python's byte-wise
encoder.) -/
def quote_char (extra_safe : List Nat) (c : Char) : String :=
  if is_always_safe c.toNat || extra_safe.contains c.toNat then String.singleton c
  else String.join ((utf8_bytes c).map percent_encode_byte)

/-- `urllib.parse.quote` with its default `safe="/"` (byte 47), as applied to
the location at source line 29. -/
def quote (s : String) : String :=
  String.join (s.data.map (quote_char [47]))

/-- `urllib.parse.quote_plus`, which `urlencode` applies to each key and
value: `quote` with no safe characters, except that a space becomes `+`. -/
def quote_plus (s : String) : String :=
  String.join (s.data.map fun c => if c = ' ' then "+" else quote_char [] c)

/-- `urllib.parse.urlencode` (source line 38): `key=value` pairs joined with
`&`, both sides escaped by `quote_plus`, in the given (insertion) order. -/
def urlencode (params : List (String × String)) : String :=
  String.intercalate "&"
    (params.map fun p => quote_plus p.1 ++ "=" ++ quote_plus p.2)

/-- The URL `get_weather_data` issues its GET to (source lines 29–41):
`f"{BASE_URL}{encoded_location}/{date}?{query_string}"`, with the query
parameters of lines 32–37.  `api_key` stands for the module-level `API_KEY`
credential, read once from the process-wide secret configuration at import
(source line 11) and only passed along here. -/
def get_weather_request_url (api_key location date : String) : String :=
  BASE_URL ++ quote location ++ "/" ++ date ++ "?" ++
    urlencode [("unitGroup", "us"), ("include", "hours"), ("key", api_key),
               ("contentType", "json")]

/-- C4 — Precondition enforcement: `extract_weather_fields` fails (returns an
error, modelling the fatal `AssertionError`) if and only if the response's
`days` array does not have exactly one element; with exactly one element it
returns `Except.ok`. -/
theorem extract_fails_iff_not_one_day (weather_data : WeatherData) :
    (∃ e, extract_weather_fields weather_data = Except.error e) ↔
      weather_data.days.length ≠ 1 := by
  constructor
  · rintro ⟨e, he⟩ hlen
    obtain ⟨d, hd⟩ := List.length_eq_one.mp hlen
    simp [extract_weather_fields, hd] at he
  · intro hlen
    refine ⟨"Expected 1 day of data", ?_⟩
    unfold extract_weather_fields
    match hdays : weather_data.days with
    | [] => rfl
    | [d] => exact absurd (by simp [hdays]) hlen
    | d₁ :: d₂ :: rest => rfl

/-- C4 witness: on a two-day response extraction fails, and two-day means
`days.length ≠ 1`. -/
theorem extract_fails_iff_not_one_day_witness :
    (∃ e, extract_weather_fields ⟨[⟨[]⟩, ⟨[]⟩]⟩ = Except.error e) ∧
      (⟨[⟨[]⟩, ⟨[]⟩]⟩ : WeatherData).days.length ≠ 1 :=
  ⟨(extract_fails_iff_not_one_day ⟨[⟨[]⟩, ⟨[]⟩]⟩).mpr (by decide),
   by decide⟩

/-- C5 — Field extraction: on a response whose `days` array is exactly one
day, extraction succeeds and copies, from each hourly entry in order, exactly
the fields `datetime`, `temp`, `dew`, `windspeed`, `conditions`, substituting
`""` for a missing `datetime` or `conditions` and keeping a missing
`temp`/`dew`/`windspeed` as `none`. -/
theorem extract_copies_fields (weather_data : WeatherData) (day_data : Day)
    (hone : weather_data.days = [day_data]) :
    extract_weather_fields weather_data =
      Except.ok (day_data.hours.map fun hour =>
        { datetime := hour.datetime.getD ""
          temp := hour.temp
          dew := hour.dew
          windspeed := hour.windspeed
          conditions := hour.conditions.getD "" }) := by
  unfold extract_weather_fields
  rw [hone]
  rfl

/-- C5 witness: the §8 example — a single day with the single hour
`{"datetime":"00:00:00","temp":50.2,"dew":40.1,"windspeed":5.0,"conditions":"Clear"}`
extracts to exactly that hour's five fields. -/
theorem extract_copies_fields_witness :
    extract_weather_fields
        ⟨[⟨[⟨some "00:00:00", some 50.2, some 40.1, some 5.0, some "Clear"⟩]⟩]⟩ =
      Except.ok [⟨"00:00:00", some 50.2, some 40.1, some 5.0, "Clear"⟩] :=
  extract_copies_fields
    ⟨[⟨[⟨some "00:00:00", some 50.2, some 40.1, some 5.0, some "Clear"⟩]⟩]⟩
    ⟨[⟨some "00:00:00", some 50.2, some 40.1, some 5.0, some "Clear"⟩]⟩ rfl

/-- Helper for C8: looking up `k` after folding the dict insertions over
`existing_data` yields the last record of `existing_data` whose key is `k`,
falling back to the initial dict when there is none. -/
theorem index_foldl_lookup (existing_data : List WeatherRecord) :
    ∀ (d : Cache) (k : String × String),
      existing_data.foldl
          (fun d entry => dict_insert d (entry.marathon, entry.date) entry) d k
        = ((existing_data.filter fun entry =>
              decide ((entry.marathon, entry.date) = k)).getLast?).elim (d k) some := by
  induction existing_data with
  | nil => intro d k; simp
  | cons e rest ih =>
    intro d k
    by_cases hp : (e.marathon, e.date) = k
    · have hfe : (e :: rest).filter
          (fun entry => decide ((entry.marathon, entry.date) = k))
          = e :: rest.filter (fun entry => decide ((entry.marathon, entry.date) = k)) := by
        simp [List.filter_cons, hp]
      rw [List.foldl_cons, ih, hfe]
      have hins : dict_insert d (e.marathon, e.date) e k = some e := by
        simp [dict_insert, hp]
      cases hrest : rest.filter (fun entry => decide ((entry.marathon, entry.date) = k)) with
      | nil => simp [hins]
      | cons b l =>
        cases hxl : (b :: l).getLast? with
        | none => simp at hxl
        | some x => simp [List.getLast?_cons_cons, hxl]
    · have hfe : (e :: rest).filter
          (fun entry => decide ((entry.marathon, entry.date) = k))
          = rest.filter (fun entry => decide ((entry.marathon, entry.date) = k)) := by
        simp [List.filter_cons, hp]
      have hins : dict_insert d (e.marathon, e.date) e k = d k := by
        have : k ≠ (e.marathon, e.date) := fun h => hp h.symm
        simp [dict_insert, this]
      rw [List.foldl_cons, ih, hfe, hins]

/-- C8 — Duplicate-key resolution: the mapping built by
`load_existing_weather` binds each key to the *last* record with that key in
array order (last-write-wins), and every key occurring in the array is
present in the mapping. -/
theorem cache_last_write_wins (existing_data : List WeatherRecord)
    (k : String × String) :
    load_existing_weather (some existing_data) k
        = (existing_data.filter fun entry =>
            decide ((entry.marathon, entry.date) = k)).getLast?
      ∧ ∀ entry ∈ existing_data,
          (load_existing_weather (some existing_data)
            (entry.marathon, entry.date)).isSome = true := by
  have hmain : ∀ k2 : String × String,
      load_existing_weather (some existing_data) k2
        = (existing_data.filter fun entry =>
            decide ((entry.marathon, entry.date) = k2)).getLast? := by
    intro k2
    show index_by_key existing_data k2 = _
    rw [index_by_key, index_foldl_lookup]
    cases (existing_data.filter fun entry =>
        decide ((entry.marathon, entry.date) = k2)).getLast? <;> rfl
  refine ⟨hmain k, fun entry hmem => ?_⟩
  rw [hmain (entry.marathon, entry.date)]
  rw [List.getLast?_isSome]
  exact List.ne_nil_of_mem (List.mem_filter.mpr ⟨hmem, by simp⟩)

/-- C8 witness: with two records sharing the key `("Boston", "2020-04-20")`,
the mapping binds that key to the second (later) record. -/
theorem cache_last_write_wins_witness :
    load_existing_weather
        (some [⟨"Boston", "Boston, MA", "2020-04-20", 2019, []⟩,
               ⟨"Boston", "Boston, MA", "2020-04-20", 2020, []⟩])
        ("Boston", "2020-04-20")
      = some ⟨"Boston", "Boston, MA", "2020-04-20", 2020, []⟩ := by
  rw [(cache_last_write_wins
    [⟨"Boston", "Boston, MA", "2020-04-20", 2019, []⟩,
     ⟨"Boston", "Boston, MA", "2020-04-20", 2020, []⟩]
    ("Boston", "2020-04-20")).1]
  decide

/-- C7 — Cache loader on a missing file: `load_existing_weather` of an absent
file is the empty mapping (no key bound), and consequently a run over any
catalog treats every required event as a cache miss (one client call per
catalog event). -/
theorem load_missing_file_empty :
    (∀ k, load_existing_weather none k = none) ∧
      ∀ marathons : List Marathon,
        miss_calls (load_existing_weather none) (catalog_events marathons)
          = (catalog_events marathons).map fun x => (x.location, x.event.date) := by
  refine ⟨fun k => rfl, fun marathons => ?_⟩
  induction catalog_events marathons with
  | nil => rfl
  | cons x rest ih =>
    rw [miss_calls, List.filterMap_cons]
    show (x.location, x.event.date) :: rest.filterMap _ = _
    rw [List.map_cons]
    exact congrArg _ ih

/-- Bridge lemma: a successful pass over one marathon's history produces, in
order, exactly the record `expected_record` gives for each event, and its
client calls are exactly the misses' `(location, date)` pairs in order. -/
theorem fetch_history_ok (client : Client) (existing_weather : Cache)
    (marathon_name location : String) :
    ∀ (events : List Event) (records : List WeatherRecord)
      (calls : List (String × String)),
      fetch_marathon_history client existing_weather marathon_name location events
          = Except.ok (records, calls) →
      List.Forall₂
          (fun e r =>
            expected_record client existing_weather ⟨marathon_name, location, e⟩
              = Except.ok r)
          events records
        ∧ calls = miss_calls existing_weather
            (events.map fun e => ⟨marathon_name, location, e⟩) := by
  intro events
  induction events with
  | nil =>
    intro records calls h
    rw [fetch_marathon_history] at h
    simp only [Except.ok.injEq, Prod.mk.injEq] at h
    obtain ⟨h1, h2⟩ := h
    subst h1; subst h2
    exact ⟨List.Forall₂.nil, rfl⟩
  | cons event rest ih =>
    intro records calls h
    rw [fetch_marathon_history] at h
    cases hc : existing_weather (marathon_name, event.date) with
    | some cached =>
      rw [hc] at h
      cases hrec : fetch_marathon_history client existing_weather marathon_name
          location rest with
      | error e => rw [hrec] at h; exact absurd h (by simp)
      | ok pair =>
        obtain ⟨rs, cs⟩ := pair
        rw [hrec] at h
        simp only [Except.ok.injEq, Prod.mk.injEq] at h
        obtain ⟨h1, h2⟩ := h
        subst h1; subst h2
        obtain ⟨ihf, ihc⟩ := ih rs cs hrec
        refine ⟨List.Forall₂.cons ?_ ihf, ?_⟩
        · rw [expected_record]; rw [hc]
        · simp only [List.map_cons, miss_calls, List.filterMap_cons, hc]
          exact ihc
    | none =>
      rw [hc] at h
      dsimp only at h
      cases hcl : client location event.date with
      | error e => rw [hcl] at h; exact absurd h (by simp)
      | ok weather_data =>
        rw [hcl] at h
        dsimp only at h
        cases hex : extract_weather_fields weather_data with
        | error e => rw [hex] at h; exact absurd h (by simp)
        | ok extracted_weather =>
          rw [hex] at h
          dsimp only at h
          cases hrec : fetch_marathon_history client existing_weather marathon_name
              location rest with
          | error e => rw [hrec] at h; exact absurd h (by simp)
          | ok pair =>
            obtain ⟨rs, cs⟩ := pair
            rw [hrec] at h
            simp only [Except.ok.injEq, Prod.mk.injEq] at h
            obtain ⟨h1, h2⟩ := h
            subst h1; subst h2
            obtain ⟨ihf, ihc⟩ := ih rs cs hrec
            refine ⟨List.Forall₂.cons ?_ ihf, ?_⟩
            · rw [expected_record, hc]
              dsimp only
              rw [hcl]
              dsimp only
              rw [hex]
            · simp only [List.map_cons, miss_calls, List.filterMap_cons, hc]
              rw [ihc]; rfl

/-- Bridge lemma: a successful full run produces, in catalog
(marathon-then-history) order, exactly the record `expected_record` gives for
each required event, and its client calls are exactly the misses'
`(location, date)` pairs in that order. -/
theorem fetch_all_ok (client : Client) (existing_weather : Cache) :
    ∀ (marathons : List Marathon) (records : List WeatherRecord)
      (calls : List (String × String)),
      fetch_all_marathon_weather client marathons existing_weather
          = Except.ok (records, calls) →
      List.Forall₂
          (fun x r => expected_record client existing_weather x = Except.ok r)
          (catalog_events marathons) records
        ∧ calls = miss_calls existing_weather (catalog_events marathons) := by
  intro marathons
  induction marathons with
  | nil =>
    intro records calls h
    rw [fetch_all_marathon_weather] at h
    simp only [Except.ok.injEq, Prod.mk.injEq] at h
    obtain ⟨h1, h2⟩ := h
    subst h1; subst h2
    exact ⟨List.Forall₂.nil, rfl⟩
  | cons marathon rest ih =>
    intro records calls h
    rw [fetch_all_marathon_weather] at h
    cases hm : fetch_marathon_history client existing_weather marathon.name
        marathon.location marathon.history with
    | error e => rw [hm] at h; exact absurd h (by simp)
    | ok pair1 =>
      obtain ⟨rs1, cs1⟩ := pair1
      rw [hm] at h
      cases hr : fetch_all_marathon_weather client rest existing_weather with
      | error e => rw [hr] at h; exact absurd h (by simp)
      | ok pair2 =>
        obtain ⟨rs2, cs2⟩ := pair2
        rw [hr] at h
        simp only [Except.ok.injEq, Prod.mk.injEq] at h
        obtain ⟨h1, h2⟩ := h
        subst h1; subst h2
        obtain ⟨ihf1, ihc1⟩ := fetch_history_ok client existing_weather
          marathon.name marathon.location marathon.history rs1 cs1 hm
        obtain ⟨ihf2, ihc2⟩ := ih rs2 cs2 hr
        constructor
        · rw [catalog_events, List.flatMap_cons]
          refine List.rel_append ?_ ihf2
          exact List.forall₂_map_left_iff.mpr ihf1
        · rw [catalog_events, List.flatMap_cons, miss_calls, List.filterMap_append]
          rw [ihc1, ihc2]; rfl

/-- C1 — Cache-hit correctness: if the `i`-th required catalog event has its
key in the cache, a successful run has the cached record, unchanged, at
position `i` of its output, and the run's client calls are exactly those
contributed by the *other* catalog entries' misses — none for this key. -/
theorem cache_hit_no_call (client : Client) (marathons : List Marathon)
    (existing_weather : Cache) (records : List WeatherRecord)
    (calls : List (String × String)) (i : ℕ) (x : CatEntry)
    (cached : WeatherRecord)
    (hfetch : fetch_all_marathon_weather client marathons existing_weather
      = Except.ok (records, calls))
    (hi : i < (catalog_events marathons).length)
    (hx : (catalog_events marathons).get ⟨i, hi⟩ = x)
    (hc : existing_weather (x.name, x.event.date) = some cached) :
    (∃ h2 : i < records.length, records.get ⟨i, h2⟩ = cached)
      ∧ calls
        = miss_calls existing_weather ((catalog_events marathons).take i)
          ++ miss_calls existing_weather ((catalog_events marathons).drop (i + 1)) := by
  obtain ⟨hf, hcalls⟩ := fetch_all_ok client existing_weather marathons records calls hfetch
  obtain ⟨hlen, hget⟩ := List.forall₂_iff_get.mp hf
  have h2 : i < records.length := hlen ▸ hi
  have hexp := hget i hi h2
  rw [hx, expected_record, hc] at hexp
  dsimp only at hexp
  refine ⟨⟨h2, (Except.ok.inj hexp).symm⟩, ?_⟩
  have hdrop : (catalog_events marathons).drop i
      = x :: (catalog_events marathons).drop (i + 1) := by
    rw [List.drop_eq_getElem_cons hi]
    rw [← List.get_eq_getElem (catalog_events marathons) ⟨i, hi⟩, hx]
  have hsplit : catalog_events marathons
      = (catalog_events marathons).take i
        ++ x :: (catalog_events marathons).drop (i + 1) := by
    conv_lhs => rw [← List.take_append_drop i (catalog_events marathons), hdrop]
  rw [hcalls]
  conv_lhs => rw [hsplit]
  simp only [miss_calls, List.filterMap_append, List.filterMap_cons, hc]

/-- C1 witness: one cached Boston event; the run returns the cached record
at position 0 and makes no client call. -/
theorem cache_hit_no_call_witness :
    (∃ h2 : 0 < [boston_record].length,
        [boston_record].get ⟨0, h2⟩ = boston_record)
      ∧ ([] : List (String × String))
        = miss_calls (load_existing_weather (some [boston_record]))
            ((catalog_events [boston_marathon]).take 0)
          ++ miss_calls (load_existing_weather (some [boston_record]))
            ((catalog_events [boston_marathon]).drop 1) :=
  cache_hit_no_call no_network [boston_marathon]
    (load_existing_weather (some [boston_record])) [boston_record] [] 0
    ⟨"Boston", "Boston, MA", ⟨"2020-04-20", 2020⟩⟩ boston_record
    (by decide) (by decide) (by decide) (by decide)

/-- C2 — Cache-miss correctness: if the `i`-th required catalog event's key
is absent from the cache, a successful run obtained a response from exactly
one client call for it, made with the marathon's location and the event's
date; position `i` of the output is a record carrying the marathon name,
location, date, the event's year, and as `weather` exactly
`extract_weather_fields` of that raw response.  The run's calls are those of
the other entries' misses plus this single `(location, date)` call, in
catalog order. -/
theorem cache_miss_one_call (client : Client) (marathons : List Marathon)
    (existing_weather : Cache) (records : List WeatherRecord)
    (calls : List (String × String)) (i : ℕ) (x : CatEntry)
    (hfetch : fetch_all_marathon_weather client marathons existing_weather
      = Except.ok (records, calls))
    (hi : i < (catalog_events marathons).length)
    (hx : (catalog_events marathons).get ⟨i, hi⟩ = x)
    (hc : existing_weather (x.name, x.event.date) = none) :
    ∃ weather_data extracted_weather,
      client x.location x.event.date = Except.ok weather_data
        ∧ extract_weather_fields weather_data = Except.ok extracted_weather
        ∧ (∃ h2 : i < records.length,
            records.get ⟨i, h2⟩
              = ⟨x.name, x.location, x.event.date, x.event.year, extracted_weather⟩)
        ∧ calls
          = miss_calls existing_weather ((catalog_events marathons).take i)
            ++ (x.location, x.event.date)
              :: miss_calls existing_weather ((catalog_events marathons).drop (i + 1)) := by
  obtain ⟨hf, hcalls⟩ := fetch_all_ok client existing_weather marathons records calls hfetch
  obtain ⟨hlen, hget⟩ := List.forall₂_iff_get.mp hf
  have h2 : i < records.length := hlen ▸ hi
  have hexp := hget i hi h2
  rw [hx, expected_record, hc] at hexp
  dsimp only at hexp
  cases hcl : client x.location x.event.date with
  | error e => rw [hcl] at hexp; exact absurd hexp (by simp)
  | ok weather_data =>
    rw [hcl] at hexp
    dsimp only at hexp
    cases hex : extract_weather_fields weather_data with
    | error e => rw [hex] at hexp; exact absurd hexp (by simp)
    | ok extracted_weather =>
      rw [hex] at hexp
      dsimp only at hexp
      refine ⟨weather_data, extracted_weather, rfl, hex,
        ⟨h2, (Except.ok.inj hexp).symm⟩, ?_⟩
      have hdrop : (catalog_events marathons).drop i
          = x :: (catalog_events marathons).drop (i + 1) := by
        rw [List.drop_eq_getElem_cons hi]
        rw [← List.get_eq_getElem (catalog_events marathons) ⟨i, hi⟩, hx]
      have hsplit : catalog_events marathons
          = (catalog_events marathons).take i
            ++ x :: (catalog_events marathons).drop (i + 1) := by
        conv_lhs => rw [← List.take_append_drop i (catalog_events marathons), hdrop]
      rw [hcalls]
      conv_lhs => rw [hsplit]
      simp only [miss_calls, List.filterMap_append, List.filterMap_cons, hc]

/-- C2 witness: empty cache, one Boston event; the run calls the client once
with `("Boston, MA", "2020-04-20")` and appends the record built from the
extracted response. -/
theorem cache_miss_one_call_witness :
    ∃ weather_data extracted_weather,
      stub_client "Boston, MA" "2020-04-20" = Except.ok weather_data
        ∧ extract_weather_fields weather_data = Except.ok extracted_weather
        ∧ (∃ h2 : 0 < [fetched_boston_record].length,
            [fetched_boston_record].get ⟨0, h2⟩
              = ⟨"Boston", "Boston, MA", "2020-04-20", 2020, extracted_weather⟩)
        ∧ [("Boston, MA", "2020-04-20")]
          = miss_calls (load_existing_weather none)
              ((catalog_events [boston_marathon]).take 0)
            ++ ("Boston, MA", "2020-04-20")
              :: miss_calls (load_existing_weather none)
                ((catalog_events [boston_marathon]).drop 1) :=
  cache_miss_one_call stub_client [boston_marathon] (load_existing_weather none)
    [fetched_boston_record] [("Boston, MA", "2020-04-20")] 0
    ⟨"Boston", "Boston, MA", ⟨"2020-04-20", 2020⟩⟩
    (by decide) (by decide) (by decide) (by decide)

/-- C10 — One record per catalog event, duplicates included: a successful run
returns exactly one record per event of the catalog, in catalog order (output
length = total number of events across all histories), position `i` being
determined by the `i`-th event alone; a `(marathon name, date)` pair occurring
twice in the catalog therefore gets its record appended twice, so the output
(and hence the rewritten cache file) can contain duplicate keys. -/
theorem one_record_per_event (client : Client) (marathons : List Marathon)
    (existing_weather : Cache) (records : List WeatherRecord)
    (calls : List (String × String))
    (hfetch : fetch_all_marathon_weather client marathons existing_weather
      = Except.ok (records, calls)) :
    records.length = (catalog_events marathons).length
      ∧ ∀ (i : ℕ) (h1 : i < (catalog_events marathons).length)
          (h2 : i < records.length),
          expected_record client existing_weather
              ((catalog_events marathons).get ⟨i, h1⟩)
            = Except.ok (records.get ⟨i, h2⟩) := by
  obtain ⟨hf, _⟩ := fetch_all_ok client existing_weather marathons records calls hfetch
  obtain ⟨hlen, hget⟩ := List.forall₂_iff_get.mp hf
  exact ⟨hlen.symm, hget⟩

/-- C10 witness: the catalog lists `("Boston", "2020-04-20")` twice and the
run (here: both hits on the one cached record) appends a record both times —
the output has two records with the same key. -/
theorem one_record_per_event_witness :
    ([boston_record, boston_record] : List WeatherRecord).length
      = (catalog_events [dup_marathon]).length :=
  (one_record_per_event no_network [dup_marathon]
    (load_existing_weather (some [boston_record]))
    [boston_record, boston_record] [] (by decide)).1

/-- Helper for C3: when every event of the history is a cache hit, the pass
over the history succeeds with no client call and returns exactly the cached
records in history order. -/
theorem fetch_history_all_hit (client : Client) (existing_weather : Cache)
    (marathon_name location : String) :
    ∀ events : List Event,
      (∀ e ∈ events, (existing_weather (marathon_name, e.date)).isSome = true) →
      fetch_marathon_history client existing_weather marathon_name location events
        = Except.ok
            (events.map fun e => (existing_weather (marathon_name, e.date)).getD default,
             []) := by
  intro events
  induction events with
  | nil => intro _; rfl
  | cons event rest ih =>
    intro hall
    obtain ⟨cached, hcached⟩ :=
      Option.isSome_iff_exists.mp (hall event (List.mem_cons_self event rest))
    rw [fetch_marathon_history, hcached,
      ih fun e he => hall e (List.mem_cons_of_mem event he)]
    dsimp only
    rw [List.map_cons, hcached]
    rfl

/-- C3 — Idempotence: when the cache already contains a record for every
`(marathon name, date)` pair required by the catalog, the run succeeds, makes
zero client calls, and returns exactly the cached records reordered into
catalog (marathon-then-history) order. -/
theorem idempotent_run (client : Client) (existing_weather : Cache) :
    ∀ marathons : List Marathon,
      (∀ x ∈ catalog_events marathons,
        (existing_weather (x.name, x.event.date)).isSome = true) →
      fetch_all_marathon_weather client marathons existing_weather
        = Except.ok
            ((catalog_events marathons).map fun x =>
              (existing_weather (x.name, x.event.date)).getD default,
             []) := by
  intro marathons
  induction marathons with
  | nil => intro _; rfl
  | cons marathon rest ih =>
    intro hall
    have hm : ∀ e ∈ marathon.history,
        (existing_weather (marathon.name, e.date)).isSome = true := by
      intro e he
      refine hall ⟨marathon.name, marathon.location, e⟩ ?_
      rw [catalog_events]
      exact List.mem_flatMap.mpr
        ⟨marathon, List.mem_cons_self _ _, List.mem_map_of_mem _ he⟩
    have hrest : ∀ x ∈ catalog_events rest,
        (existing_weather (x.name, x.event.date)).isSome = true := by
      intro x hx
      refine hall x ?_
      rw [catalog_events, List.flatMap_cons]
      exact List.mem_append_right _ hx
    rw [fetch_all_marathon_weather,
      fetch_history_all_hit client existing_weather marathon.name
        marathon.location marathon.history hm]
    dsimp only
    rw [ih hrest]
    dsimp only
    conv_rhs => rw [catalog_events, List.flatMap_cons, List.map_append, List.map_map]
    rfl

/-- C3 witness: catalog = one Boston event, cache already holds its record;
the run returns exactly that record and makes zero client calls. -/
theorem idempotent_run_witness :
    fetch_all_marathon_weather no_network [boston_marathon]
        (load_existing_weather (some [boston_record]))
      = Except.ok ([boston_record], []) := by
  rw [idempotent_run no_network (load_existing_weather (some [boston_record]))
    [boston_marathon] (by decide)]
  decide

/-- C6 — Mid-run failure atomicity: if any per-record client call or
extraction fails, the whole run fails and `main` never reaches the write:
the cache file's contents after the run are exactly what they were before.
(The Persistence Writer runs only in the success branch of `main_run`.) -/
theorem failed_run_preserves_cache (client : Client) (marathons : List Marathon)
    (file : Option (List WeatherRecord))
    (hfail : ∃ e, fetch_all_marathon_weather client marathons
      (load_existing_weather file) = Except.error e) :
    main_run client marathons file = file := by
  obtain ⟨e, he⟩ := hfail
  rw [main_run, he]

/-- C6 witness: the network is down and one required event is uncached, so
the run fails; the pre-existing cache file contents survive unchanged. -/
theorem failed_run_preserves_cache_witness :
    main_run no_network [boston_marathon]
        (some [⟨"Old", "Old Town", "2019-01-01", 2019, []⟩])
      = some [⟨"Old", "Old Town", "2019-01-01", 2019, []⟩] :=
  failed_run_preserves_cache no_network [boston_marathon]
    (some [⟨"Old", "Old Town", "2019-01-01", 2019, []⟩])
    ⟨"no network", by decide⟩

/-- C9 — Request URL construction: for every location and date, the requested
URL is the fixed API base, then the URL-encoded location, a slash, the date
(verbatim), and the query string
`unitGroup=us&include=hours&key=<credential>&contentType=json` — provided the
credential is a plain URL-safe token (it passes through `quote_plus`
unchanged). -/
theorem request_url_formation (api_key location date : String)
    (hsafe : quote_plus api_key = api_key) :
    get_weather_request_url api_key location date
      = BASE_URL ++ quote location ++ "/" ++ date ++ "?unitGroup=us&include=hours&key="
        ++ api_key ++ "&contentType=json" := by
  have h1 : get_weather_request_url api_key location date
      = (BASE_URL ++ quote location ++ "/" ++ date ++ "?")
        ++ ((("unitGroup=us&include=hours&" ++ ("key=" ++ quote_plus api_key)) ++ "&")
          ++ "contentType=json") := rfl
  rw [h1, hsafe]
  rw [← String.append_assoc "unitGroup=us&include=hours&" "key=" api_key]
  rw [String.append_assoc ("unitGroup=us&include=hours&" ++ "key=" ++ api_key)
    "&" "contentType=json"]
  rw [← String.append_assoc (BASE_URL ++ quote location ++ "/" ++ date ++ "?")
    ("unitGroup=us&include=hours&" ++ "key=" ++ api_key) ("&" ++ "contentType=json")]
  rw [← String.append_assoc (BASE_URL ++ quote location ++ "/" ++ date ++ "?")
    ("unitGroup=us&include=hours&" ++ "key=") api_key]
  rw [String.append_assoc (BASE_URL ++ quote location ++ "/" ++ date) "?"
    ("unitGroup=us&include=hours&" ++ "key=")]
  rfl

set_option maxRecDepth 8000 in
/-- C9 witness: a plain alphanumeric credential and the location
`"Boston, MA"` (comma and space get percent-encoded) on `2020-04-20`. -/
theorem request_url_formation_witness :
    quote_plus "SECRETKEY123" = "SECRETKEY123"
      ∧ get_weather_request_url "SECRETKEY123" "Boston, MA" "2020-04-20"
        = "https://weather.visualcrossing.com/VisualCrossingWebServices/rest/services/timeline/Boston%2C%20MA/2020-04-20?unitGroup=us&include=hours&key=SECRETKEY123&contentType=json" := by
  refine ⟨by decide, ?_⟩
  rw [request_url_formation "SECRETKEY123" "Boston, MA" "2020-04-20" (by decide)]
  decide
